import Mathlib

/-!
Verification of the election-map data pipeline of `myviz`
(`src/myviz/bokeh_maps.py`, function `styled_election_map`).

The pipeline is embedded shallowly:

* machine floats are idealised as exact rationals, with an explicit
  four-constructor value type `F` (`num q`, `nan`, `inf`, `ninf`) so that the
  pandas semantics of division by zero, `replace([inf, -inf], 0)` and
  `fillna(0)` are modelled faithfully;
* `numpy`'s `round(x, 2)` (round half to even) is `round2`, JavaScript's
  `toFixed(1)` (ties away from the floor, i.e. toward plus infinity) is
  `toFixed1`, Python's `"%.1f"` formatting is `rhe1`;
* the pandas `groupby(...).sum` / `pivot` / `fillna(0)` combination is modelled
  by `aggVotes` (sum over the rows of a group, an empty group summing to `0`,
  which coincides with `pivot(...).fillna(0)`), together with the sorted,
  deduplicated key lists `regions` and `candidats` (pandas sorts group keys and
  pivot columns);
* the `merge(..., on="moughataa", how="left")` is `mergedCount`/`mergedTotal`:
  a geometry row whose region appears in the pivot receives the pivot values,
  any other geometry row receives `nan` in every data column;
* the `CustomJS` callback attached to the candidate selector is `callbackView`,
  and the interactive session is the state machine `InteractState`/`step`.
-/

namespace Myviz

/-- A float-like value: a finite rational, `NaN`, `+inf` or `-inf`.  This is the
cell type of the data columns of the pandas frames. -/
inductive F where
  | num (q : ℚ)
  | nan
  | inf
  | ninf
deriving DecidableEq

/-- The finite value of a cell, `0` for the non-finite cells.  After the
sanitisation pass every cell is finite, so this is the value the GeoJSON
serialisation hands to the client side. -/
def F.toQ : F → ℚ
  | .num q => q
  | _ => 0

/-- Whether a cell holds a finite value (neither `NaN` nor an infinity). -/
def F.isFinite : F → Bool
  | .num _ => true
  | _ => false

/-- Float division: `a / 0` is `NaN` for `a = 0` and a signed infinity
otherwise; `NaN` propagates (IEEE-754 semantics on the idealised values). -/
def fDiv : F → F → F
  | .num a, .num b =>
      if b = 0 then (if a = 0 then .nan else if 0 < a then .inf else .ninf)
      else .num (a / b)
  | .nan, _ => .nan
  | _, .nan => .nan
  | .inf, .num b => if 0 ≤ b then .inf else .ninf
  | .ninf, .num b => if 0 ≤ b then .ninf else .inf
  | .num _, .inf => .num 0
  | .num _, .ninf => .num 0
  | .inf, .inf => .nan
  | .inf, .ninf => .nan
  | .ninf, .inf => .nan
  | .ninf, .ninf => .nan

/-- Float multiplication; `NaN` propagates, infinities keep IEEE sign rules. -/
def fMul : F → F → F
  | .num a, .num b => .num (a * b)
  | .nan, _ => .nan
  | _, .nan => .nan
  | .inf, .num b => if b = 0 then .nan else if 0 < b then .inf else .ninf
  | .num a, .inf => if a = 0 then .nan else if 0 < a then .inf else .ninf
  | .ninf, .num b => if b = 0 then .nan else if 0 < b then .ninf else .inf
  | .num a, .ninf => if a = 0 then .nan else if 0 < a then .ninf else .inf
  | .inf, .inf => .inf
  | .inf, .ninf => .ninf
  | .ninf, .inf => .ninf
  | .ninf, .ninf => .inf

/-- Round a rational to the nearest integer, ties to the even integer
(the rounding mode of `numpy.round`). -/
def rhe (q : ℚ) : ℤ :=
  if q - ⌊q⌋ = 1 / 2 then (if Even ⌊q⌋ then ⌊q⌋ else ⌊q⌋ + 1) else round q

/-- Round to two decimal places, ties to even: `numpy`'s `Series.round(2)`. -/
def round2 (q : ℚ) : ℚ := (rhe (q * 100) : ℚ) / 100

/-- Round to one decimal place, ties to even: Python's `"%.1f"` format used by
the initial summary panel. -/
def rhe1 (q : ℚ) : ℚ := (rhe (q * 10) : ℚ) / 10

/-- Round to one decimal place, ties toward plus infinity: JavaScript's
`Number.prototype.toFixed(1)` ("if there are two such n, pick the larger n"),
used by the selection callback.  `round` in Mathlib is exactly
`fun x => ⌊x + 1 / 2⌋`. -/
def toFixed1 (q : ℚ) : ℚ := (round (q * 10) : ℚ) / 10

/-- Rounding to two decimals on cells: finite cells are rounded, `NaN` and the
infinities are fixed points (`Series.round` leaves them alone). -/
def fRound2 : F → F
  | .num q => .num (round2 q)
  | v => v

/-- The pass `replace([np.inf, -np.inf], 0)` of line 68. -/
def replaceInfs : F → F
  | .inf => .num 0
  | .ninf => .num 0
  | v => v

/-- The pass `fillna(0)` of line 69. -/
def fillna0 : F → F
  | .nan => .num 0
  | v => v

/-- Lines 68–69 of the source: replace the infinities by `0`, then fill the
missing values with `0`.  The subsequent `astype(float)` of lines 72–74 is the
identity on the idealised numeric cells. -/
def sanitize (v : F) : F := fillna0 (replaceInfs v)

/-- A row of the results CSV: columns `year`, `moughataa`, `candidate`,
`nb_votes`. -/
structure ERow where
  year : Int
  moughataa : String
  candidate : String
  nb_votes : ℚ
deriving DecidableEq

/-- A row of the geometry source, after the line-29 rename of `ADM2_EN` to
`moughataa`.  The geometry payload is opaque (`to_crs` only reprojects it and
no claim depends on it). -/
structure GRow (γ : Type) where
  moughataa : String
  geometry : γ
deriving DecidableEq

/-- Line 32: `df_elections[df_elections['year'] == 2024]`. -/
def filterYear (rows : List ERow) : List ERow :=
  rows.filter fun e => e.year == 2024

/-- Sorted list of the distinct values of a string column (pandas sorts group
keys and pivot labels). -/
def sortDedup (l : List String) : List String :=
  List.insertionSort (· ≤ ·) l.dedup

/-- Lines 35–38: the aggregated votes of a `(moughataa, candidate)` pair in the
2024 rows.  An absent pair sums over no rows and yields `0`, which coincides
with the `pivot(...).fillna(0)` entry. -/
def aggVotes (rows : List ERow) (m c : String) : ℚ :=
  (((filterYear rows).filter fun e => e.moughataa == m && e.candidate == c).map
    (·.nb_votes)).sum

/-- The row labels of `df_pivot`: the distinct regions of the 2024 rows, in
sorted order. -/
def regions (rows : List ERow) : List String :=
  sortDedup ((filterYear rows).map (·.moughataa))

/-- Line 42: the candidate columns of `df_pivot`, in pivot (sorted) column
order. -/
def candidats (rows : List ERow) : List String :=
  sortDedup ((filterYear rows).map (·.candidate))

/-- Line 45: `df_pivot['total_votes']`, the sum of the candidate columns of a
pivot row. -/
def rowTotal (rows : List ERow) (m : String) : ℚ :=
  ((candidats rows).map (aggVotes rows m)).sum

/-- Line 48: `totaux_nationaux`, the national total of a candidate, summed over
the pivot rows (before the merge with the geometry). -/
def totauxNat (rows : List ERow) (c : String) : ℚ :=
  ((regions rows).map fun m => aggVotes rows m c).sum

/-- Python's `max(iterable, key=f)`: the first element attaining the maximal
key.  `max` raises `ValueError` on an empty iterable, modelled by `none`. -/
def pyFold (f : α → ℚ) : α → List α → α
  | a, [] => a
  | a, y :: ys => pyFold f (if f y > f a then y else a) ys

/-- Python's `max(candidats, key=totaux.get)` over the possibly empty candidate
list. -/
def pyMax (f : α → ℚ) : List α → Option α
  | [] => none
  | x :: xs => some (pyFold f x xs)

/-- Line 51: `gagnant_national = max(totaux_nationaux, key=totaux_nationaux.get)`
(dict iteration order is the insertion order, i.e. column order). -/
def gagnantNational (rows : List ERow) : Option String :=
  pyMax (totauxNat rows) (candidats rows)

/-- Line 54, candidate columns: the left merge hands a geometry row the pivot
value when its region is a pivot row label, and `NaN` otherwise. -/
def mergedCount (rows : List ERow) (m c : String) : F :=
  if m ∈ regions rows then .num (aggVotes rows m c) else .nan

/-- Line 54, `total_votes` column of the merged frame. -/
def mergedTotal (rows : List ERow) (m : String) : F :=
  if m ∈ regions rows then .num (rowTotal rows m) else .nan

/-- A row of `gdf_clean`: the geometry, the region name, and the data columns
(candidate counts, total votes, candidate percentages), all sanitised.  The
candidate-keyed columns are total functions on column names; the column list
itself is `candidats rows`. -/
structure CleanRow (γ : Type) where
  geometry : γ
  moughataa : String
  count : String → F
  total_votes : F
  pct : String → F

/-- Lines 60–74 applied to one geometry row: select the needed columns, derive
the percentage columns `(count / total * 100).round(2)`, then sanitise every
data cell. -/
def cleanRow (rows : List ERow) (g : GRow γ) : CleanRow γ where
  geometry := g.geometry
  moughataa := g.moughataa
  count := fun c => sanitize (mergedCount rows g.moughataa c)
  total_votes := sanitize (mergedTotal rows g.moughataa)
  pct := fun c =>
    sanitize (fRound2 (fMul
      (fDiv (mergedCount rows g.moughataa c) (mergedTotal rows g.moughataa))
      (.num 100)))

/-- The prepared table `gdf_clean`: one row per geometry row, in geometry
order. -/
def gdfClean (geo : List (GRow γ)) (rows : List ERow) : List (CleanRow γ) :=
  geo.map (cleanRow rows)

/-- A data column of the prepared table, as serialised to the client
(`source.data[c]`). -/
def column (table : List (CleanRow γ)) (c : String) : List ℚ :=
  table.map fun row => (row.count c).toQ

/-- The sum of a candidate's column over the prepared (joined) table. -/
def colSum (table : List (CleanRow γ)) (c : String) : ℚ :=
  (column table c).sum

/-- The sum of the percentage columns of one prepared row. -/
def pctSum (rows : List ERow) (row : CleanRow γ) : ℚ :=
  ((candidats rows).map fun c => (row.pct c).toQ).sum

/-- The outcome of the preparation stage, as consumed by the rendering stage:
the clean table, the candidate columns, the national totals, the national
leader and the initially selected candidate (`candidats[0]`). -/
structure Prepared (γ : Type) where
  table : List (CleanRow γ)
  cands : List String
  totauxF : String → ℚ
  leader : String
  initial : String

/-- The whole preparation stage.  `max` over the empty candidate dict raises
`ValueError` (line 51) and `candidats[0]` raises `IndexError` (line 90); both
failure points are modelled by `none`. -/
def prep (geo : List (GRow γ)) (rows : List ERow) : Option (Prepared γ) :=
  match gagnantNational rows, (candidats rows).head? with
  | some leader, some c0 =>
      some { table := gdfClean geo rows, cands := candidats rows,
             totauxF := totauxNat rows, leader := leader, initial := c0 }
  | _, _ => none

/-- The derived view state of the rendering stage: everything the selection
callback rewrites (color-scale upper bound, fill-color field, figure title,
hover tooltip templates, summary-panel fields). -/
structure ViewState where
  high : ℚ
  fillField : String
  titleText : String
  tooltips : List (String × String)
  infoCandidate : String
  infoTotal : ℚ
  infoPct : ℚ
  infoLeader : String
deriving DecidableEq

/-- The hover tooltip rows for a candidate: lines 138–144 initially, rebuilt by
string concatenation in the callback (lines 224–229) with the same shape. -/
def tooltipsFor (c : String) : List (String × String) :=
  [("Moughataa", "@moughataa"),
   ("Voix", "@\x7b" ++ c ++ "\x7d\x7b0,0\x7d"),
   ("Part", "@\x7b" ++ c ++ "_pct\x7d\x7b0.0\x7d%")]

/-- The figure title for a candidate (line 102 and line 222). -/
def titleFor (c : String) : String :=
  "Résultats de " ++ c ++ " - Élections 2024"

/-- The JavaScript loop of lines 211–218: running maximum of a column starting
from `max_val = 0`. -/
def jsMaxVal (col : List ℚ) : ℚ :=
  col.foldl (fun m x => if x > m then x else m) 0

/-- The same loop's running sum `total_votes`. -/
def jsTotal (col : List ℚ) : ℚ :=
  col.foldl (· + ·) 0

/-- The selection callback (lines 207–266): given the resident data columns,
the baked-in national total and leader, and the newly selected candidate,
produce the new view state. -/
def callbackView (table : List (CleanRow γ)) (natTotal : ℚ) (leader : String)
    (c : String) : ViewState :=
  let col := column table c
  { high := jsMaxVal col
    fillField := c
    titleText := titleFor c
    tooltips := tooltipsFor c
    infoCandidate := c
    infoTotal := jsTotal col
    infoPct := toFixed1 (jsTotal col / natTotal * 100)
    infoLeader := leader }

/-- The state of the interactive session: the resident data (never touched by
the callback) and the current view state. -/
structure InteractState (γ : Type) where
  table : List (CleanRow γ)
  cands : List String
  natTotal : ℚ
  leader : String
  view : ViewState

/-- The initial view (lines 90–204): color scale bound from the initial
candidate's clean column (`Series.max`, modelled `0` on an empty column where
pandas yields `NaN`), summary panel from the precomputed national totals. -/
def initView (p : Prepared γ) (natTotal : ℚ) : ViewState :=
  { high := ((column p.table p.initial).max?).getD 0
    fillField := p.initial
    titleText := titleFor p.initial
    tooltips := tooltipsFor p.initial
    infoCandidate := p.initial
    infoTotal := p.totauxF p.initial
    infoPct := rhe1 (p.totauxF p.initial / natTotal * 100)
    infoLeader := p.leader }

/-- Build the interactive session from a preparation outcome.  The national
total over all candidates (`sum(totaux_nationaux.values())`, lines 162 and 231)
is baked in once. -/
def initState (p : Prepared γ) : InteractState γ :=
  let nt := (p.cands.map p.totauxF).sum
  { table := p.table, cands := p.cands, natTotal := nt, leader := p.leader,
    view := initView p nt }

/-- One selection transition: only the view state is rewritten. -/
def step (s : InteractState γ) (c : String) : InteractState γ :=
  { s with view := callbackView s.table s.natTotal s.leader c }

/-- A finite sequence of selection transitions. -/
def applySelections (s : InteractState γ) (cs : List String) : InteractState γ :=
  cs.foldl step s

/-! ### Concrete data used by witnesses and counterexamples -/

/-- The spec §8 scenario geometry: regions `A` and `B`. -/
def sG : List (GRow Unit) := [⟨"A", ()⟩, ⟨"B", ()⟩]

/-- The spec §8 scenario results: `A : X 70, Y 30`; `B : X 0, Y 0`. -/
def sR : List ERow :=
  [⟨2024, "A", "X", 70⟩, ⟨2024, "A", "Y", 30⟩,
   ⟨2024, "B", "X", 0⟩, ⟨2024, "B", "Y", 0⟩]

/-! ### Sorted-deduplicated key lists -/

theorem sortDedup_perm_dedup (l : List String) : List.Perm (sortDedup l) l.dedup :=
  List.perm_insertionSort _ _

theorem sortDedup_nodup (l : List String) : (sortDedup l).Nodup :=
  ((sortDedup_perm_dedup l).nodup_iff).2 (List.nodup_dedup l)

theorem mem_sortDedup {a : String} {l : List String} :
    a ∈ sortDedup l ↔ a ∈ l := by
  rw [(sortDedup_perm_dedup l).mem_iff, List.mem_dedup]

theorem sortDedup_sorted (l : List String) :
    List.Sorted (· ≤ ·) (sortDedup l) :=
  List.sorted_insertionSort _ _

theorem sortDedup_congr {l l' : List String} (h : List.Perm l l') :
    sortDedup l = sortDedup l' :=
  List.eq_of_perm_of_sorted
    ((sortDedup_perm_dedup l).trans (h.dedup.trans (sortDedup_perm_dedup l').symm))
    (sortDedup_sorted l) (sortDedup_sorted l')

/-! ### Emptiness and the year filter (C3) -/

theorem candidats_nil_of_filter_nil (rows : List ERow)
    (h : filterYear rows = []) : candidats rows = [] := by
  unfold candidats
  rw [h]
  rfl

/-- C3 claim, amended.  When no results row has year 2024, the filter itself
raises nothing and the filtered/pivoted table is empty (no candidate columns),
but the preparation stage as a whole does NOT fail silently: it fails at the
national-leader computation, where Python's `max` over the empty totals dict
raises `ValueError` (modelled by `prep` returning `none`); `candidats[0]`
would likewise raise `IndexError`. -/
theorem spec_C3 {γ : Type} (geo : List (GRow γ)) (rows : List ERow)
    (h : filterYear rows = []) :
    candidats rows = [] ∧ prep geo rows = none := by
  have hc := candidats_nil_of_filter_nil rows h
  refine ⟨hc, ?_⟩
  unfold prep gagnantNational
  rw [hc]
  rfl

/-! ### Determinism of the preparation stage (C8) -/

theorem filterYear_perm {rows rows' : List ERow} (h : List.Perm rows rows') :
    List.Perm (filterYear rows) (filterYear rows') :=
  h.filter _

theorem aggVotes_perm {rows rows' : List ERow} (h : List.Perm rows rows')
    (m c : String) : aggVotes rows m c = aggVotes rows' m c :=
  (((filterYear_perm h).filter _).map _).sum_eq

theorem candidats_perm {rows rows' : List ERow} (h : List.Perm rows rows') :
    candidats rows = candidats rows' :=
  sortDedup_congr ((filterYear_perm h).map _)

theorem regions_perm {rows rows' : List ERow} (h : List.Perm rows rows') :
    regions rows = regions rows' :=
  sortDedup_congr ((filterYear_perm h).map _)

theorem totauxNat_perm {rows rows' : List ERow} (h : List.Perm rows rows') :
    totauxNat rows = totauxNat rows' := by
  funext c
  unfold totauxNat
  rw [regions_perm h]
  exact congrArg List.sum (List.map_congr_left fun m _ => aggVotes_perm h m c)

theorem rowTotal_perm {rows rows' : List ERow} (h : List.Perm rows rows')
    (m : String) : rowTotal rows m = rowTotal rows' m := by
  unfold rowTotal
  rw [candidats_perm h]
  exact congrArg List.sum (List.map_congr_left fun c _ => aggVotes_perm h m c)

theorem cleanRow_perm {γ : Type} {rows rows' : List ERow}
    (h : List.Perm rows rows') (g : GRow γ) :
    cleanRow rows g = cleanRow rows' g := by
  have hmc : ∀ m c, mergedCount rows m c = mergedCount rows' m c := by
    intro m c
    unfold mergedCount
    rw [regions_perm h, aggVotes_perm h]
  have hmt : ∀ m, mergedTotal rows m = mergedTotal rows' m := by
    intro m
    unfold mergedTotal
    rw [regions_perm h, rowTotal_perm h]
  unfold cleanRow
  simp only [CleanRow.mk.injEq]
  refine ⟨trivial, trivial, ?_, ?_, ?_⟩
  · funext c
    rw [hmc]
  · rw [hmt]
  · funext c
    rw [hmc, hmt]

/-- C8 claim.  The preparation stage is deterministic, with no hidden
non-determinism from unordered aggregation: the prepared table (and the
candidate column list, the national totals and the leader) depends only on the
multiset of results rows, not on their enumeration order — group keys and
pivot labels are sorted, and the within-group sums are order-insensitive.
Identical inputs therefore always produce the identical table (the permutation
hypothesis subsumes the identical-input case via the identity permutation). -/
theorem spec_C8 {γ : Type} (geo : List (GRow γ)) (rows rows' : List ERow)
    (h : List.Perm rows rows') :
    gdfClean geo rows = gdfClean geo rows' ∧
    candidats rows = candidats rows' ∧
    totauxNat rows = totauxNat rows' ∧
    gagnantNational rows = gagnantNational rows' := by
  refine ⟨?_, candidats_perm h, totauxNat_perm h, ?_⟩
  · unfold gdfClean
    exact List.map_congr_left fun g _ => cleanRow_perm h g
  · unfold gagnantNational
    rw [candidats_perm h, totauxNat_perm h]

/-! ### The selection callback (C6, C9) -/

theorem jsTotal_eq_sum (col : List ℚ) : jsTotal col = col.sum := by
  have aux : ∀ (l : List ℚ) (a : ℚ), l.foldl (· + ·) a = a + l.sum := by
    intro l
    induction l with
    | nil => intro a; simp
    | cons x xs ih =>
        intro a
        simp only [List.foldl_cons, List.sum_cons, ih]
        ring
  simpa using aux col 0

theorem le_foldlMax : ∀ (l : List ℚ) (a : ℚ),
    a ≤ l.foldl (fun m x => if x > m then x else m) a := by
  intro l
  induction l with
  | nil => intro a; exact le_refl a
  | cons y ys ih =>
      intro a
      simp only [List.foldl_cons]
      by_cases hy : y > a
      · simp only [hy, if_pos]
        exact le_trans (le_of_lt hy) (ih y)
      · simp only [hy, if_neg, not_false_iff]
        exact ih a

theorem mem_le_foldlMax : ∀ (l : List ℚ) (a : ℚ), ∀ x ∈ l,
    x ≤ l.foldl (fun m x => if x > m then x else m) a := by
  intro l
  induction l with
  | nil => intro a x hx; exact absurd hx (List.not_mem_nil x)
  | cons y ys ih =>
      intro a x hx
      simp only [List.foldl_cons]
      rcases List.mem_cons.1 hx with hx | hx
      · subst hx
        by_cases hy : x > a
        · simp only [hy, if_pos]
          exact le_foldlMax ys x
        · simp only [hy, if_neg, not_false_iff]
          exact le_trans (not_lt.1 hy) (le_foldlMax ys a)
      · exact ih _ x hx

theorem foldlMax_mem_or : ∀ (l : List ℚ) (a : ℚ),
    l.foldl (fun m x => if x > m then x else m) a = a ∨
    l.foldl (fun m x => if x > m then x else m) a ∈ l := by
  intro l
  induction l with
  | nil => intro a; exact Or.inl rfl
  | cons y ys ih =>
      intro a
      simp only [List.foldl_cons]
      by_cases hy : y > a
      · simp only [hy, if_pos]
        rcases ih y with h | h
        · exact Or.inr (by rw [h]; exact List.mem_cons_self y ys)
        · exact Or.inr (List.mem_cons_of_mem y h)
      · simp only [hy, if_neg, not_false_iff]
        rcases ih a with h | h
        · exact Or.inl h
        · exact Or.inr (List.mem_cons_of_mem y h)

/-- C6 claim, amended.  A selection transition with any resident data produces:
displayed total = sum of the selected candidate's column; national share =
`toFixed1(total / national_total * 100)` (JavaScript's `toFixed(1)`); tooltip
fields renamed to the candidate's count column and its `_pct` column; and a
color-scale upper bound that is `max(0, column maximum)` — the JavaScript loop
starts its running maximum at `0`, so the bound equals the column maximum
exactly when the column contains a nonnegative value, not in general as the
claim states. -/
theorem spec_C6 {γ : Type} (s : InteractState γ) (c : String)
    (_hc : c ∈ s.cands) :
    (step s c).view.infoTotal = (column s.table c).sum ∧
    (step s c).view.infoPct = toFixed1 ((column s.table c).sum / s.natTotal * 100) ∧
    (step s c).view.tooltips =
      [("Moughataa", "@moughataa"),
       ("Voix", "@\x7b" ++ c ++ "\x7d\x7b0,0\x7d"),
       ("Part", "@\x7b" ++ c ++ "_pct\x7d\x7b0.0\x7d%")] ∧
    (step s c).view.fillField = c ∧
    (0 ≤ (step s c).view.high ∧
      ∀ x ∈ column s.table c, x ≤ (step s c).view.high) ∧
    ((step s c).view.high = 0 ∨ (step s c).view.high ∈ column s.table c) ∧
    ((∃ x ∈ column s.table c, 0 ≤ x) →
       (step s c).view.high ∈ column s.table c ∧
       ∀ x ∈ column s.table c, x ≤ (step s c).view.high) := by
  have htot : (step s c).view.infoTotal = jsTotal (column s.table c) := rfl
  have hpct : (step s c).view.infoPct
      = toFixed1 (jsTotal (column s.table c) / s.natTotal * 100) := rfl
  have hhigh : (step s c).view.high = jsMaxVal (column s.table c) := rfl
  have h0 : 0 ≤ jsMaxVal (column s.table c) := le_foldlMax _ 0
  have hbd : ∀ x ∈ column s.table c, x ≤ jsMaxVal (column s.table c) :=
    mem_le_foldlMax _ 0
  have hmo : jsMaxVal (column s.table c) = 0 ∨
      jsMaxVal (column s.table c) ∈ column s.table c := foldlMax_mem_or _ 0
  refine ⟨?_, ?_, rfl, rfl, ⟨?_, ?_⟩, ?_, ?_⟩
  · rw [htot, jsTotal_eq_sum]
  · rw [hpct, jsTotal_eq_sum]
  · rw [hhigh]
    exact h0
  · rw [hhigh]
    exact hbd
  · rw [hhigh]
    exact hmo
  · intro hex
    rw [hhigh]
    rcases hmo with hz | hmem
    · obtain ⟨x, hx, hx0⟩ := hex
      have hx0' : x = 0 := le_antisymm (hz ▸ hbd x hx) hx0
      exact ⟨hz ▸ (hx0' ▸ hx), hbd⟩
    · exact ⟨hmem, hbd⟩

theorem applySelections_leader {γ : Type} (cs : List String) :
    ∀ s : InteractState γ, s.view.infoLeader = s.leader →
      (applySelections s cs).view.infoLeader = s.leader := by
  induction cs with
  | nil => intro s hv; exact hv
  | cons c cs ih =>
      intro s hv
      have h1 : (step s c).view.infoLeader = (step s c).leader := rfl
      have h2 : (step s c).leader = s.leader := rfl
      have h3 : applySelections s (c :: cs) = applySelections (step s c) cs := rfl
      rw [h3, ih (step s c) h1, h2]

theorem prep_leader {γ : Type} (geo : List (GRow γ)) (rows : List ERow)
    (p : Prepared γ) (h : prep geo rows = some p) :
    gagnantNational rows = some p.leader := by
  unfold prep at h
  cases hg : gagnantNational rows with
  | none => rw [hg] at h; exact absurd h (by simp)
  | some w =>
      rw [hg] at h
      cases hh : (candidats rows).head? with
      | none => rw [hh] at h; exact absurd h (by simp)
      | some c0 =>
          rw [hh] at h
          simp only [Option.some.injEq] at h
          rw [← h]

/-- C9 claim.  The leader shown in the summary panel never changes: in the
initial state and after any sequence of selection transitions, the displayed
leader is the national leader computed once during preparation (the callback
re-emits the baked-in `gagnant_national` string). -/
theorem spec_C9 {γ : Type} (geo : List (GRow γ)) (rows : List ERow)
    (p : Prepared γ) (hp : prep geo rows = some p) (cs : List String) :
    (applySelections (initState p) cs).view.infoLeader = p.leader ∧
    gagnantNational rows = some p.leader := by
  refine ⟨?_, prep_leader geo rows p hp⟩
  exact applySelections_leader cs (initState p) rfl

/-! ### Sanitisation lemmas -/

theorem sanitize_num (q : ℚ) : sanitize (.num q) = .num q := rfl

theorem sanitize_isFinite (v : F) : (sanitize v).isFinite = true := by
  cases v <;> rfl

theorem sanitize_eq_num (v : F) : ∃ q : ℚ, sanitize v = .num q := by
  cases v <;> exact ⟨_, rfl⟩

/-! ### Rounding error bounds -/

theorem abs_rhe_sub (q : ℚ) : |(rhe q : ℚ) - q| ≤ 1 / 2 := by
  unfold rhe
  split
  · rename_i h
    have hfq : q - (⌊q⌋ : ℚ) = 1 / 2 := h
    split
    · rw [show (⌊q⌋ : ℚ) - q = -(q - (⌊q⌋ : ℚ)) by ring, hfq, abs_neg,
        abs_of_nonneg (by norm_num : (0 : ℚ) ≤ 1 / 2)]
    · have h2 : ((⌊q⌋ + 1 : ℤ) : ℚ) - q = 1 / 2 := by push_cast; linarith
      rw [h2, abs_of_nonneg (by norm_num : (0 : ℚ) ≤ 1 / 2)]
  · rw [abs_sub_comm]
    exact abs_sub_round q

theorem abs_round2_sub (q : ℚ) : |round2 q - q| ≤ 1 / 200 := by
  have h := abs_rhe_sub (q * 100)
  unfold round2
  have h2 : (rhe (q * 100) : ℚ) / 100 - q = ((rhe (q * 100) : ℚ) - q * 100) / 100 := by
    ring
  rw [h2, abs_div]
  rw [show |(100 : ℚ)| = 100 by norm_num]
  linarith

/-! ### Sum lemmas -/

theorem sum_map_round2_err (l : List α) (x : α → ℚ) :
    |(l.map fun a => round2 (x a)).sum - (l.map x).sum| ≤ (l.length : ℚ) / 200 := by
  induction l with
  | nil => simp
  | cons a l ih =>
      have ha := abs_round2_sub (x a)
      have htri :
          |round2 (x a) + (l.map fun a => round2 (x a)).sum - (x a + (l.map x).sum)| ≤
            |round2 (x a) - x a| +
              |(l.map fun a => round2 (x a)).sum - (l.map x).sum| := by
        have := abs_add (round2 (x a) - x a)
          ((l.map fun a => round2 (x a)).sum - (l.map x).sum)
        calc |round2 (x a) + (l.map fun a => round2 (x a)).sum - (x a + (l.map x).sum)|
            = |(round2 (x a) - x a) +
                ((l.map fun a => round2 (x a)).sum - (l.map x).sum)| := by ring_nf
          _ ≤ _ := this
      simp only [List.map_cons, List.sum_cons, List.length_cons]
      push_cast
      calc |round2 (x a) + (l.map fun a => round2 (x a)).sum - (x a + (l.map x).sum)|
          ≤ |round2 (x a) - x a| +
              |(l.map fun a => round2 (x a)).sum - (l.map x).sum| := htri
        _ ≤ 1 / 200 + (l.length : ℚ) / 200 := by exact add_le_add ha ih
        _ = ((l.length : ℚ) + 1) / 200 := by ring

theorem sum_map_mul_right (l : List α) (f : α → ℚ) (k : ℚ) :
    (l.map fun a => f a * k).sum = (l.map f).sum * k := by
  induction l with
  | nil => simp
  | cons a l ih => simp [ih, add_mul]

/-! ### Cell-level evaluation of the prepared rows -/

theorem total_matched {γ : Type} (rows : List ERow) (g : GRow γ)
    (hm : g.moughataa ∈ regions rows) :
    (cleanRow rows g).total_votes = .num (rowTotal rows g.moughataa) := by
  simp [cleanRow, mergedTotal, hm, sanitize, replaceInfs, fillna0]

theorem total_unmatched {γ : Type} (rows : List ERow) (g : GRow γ)
    (hm : g.moughataa ∉ regions rows) :
    (cleanRow rows g).total_votes = .num 0 := by
  simp [cleanRow, mergedTotal, hm, sanitize, replaceInfs, fillna0]

theorem count_matched {γ : Type} (rows : List ERow) (g : GRow γ)
    (hm : g.moughataa ∈ regions rows) (c : String) :
    (cleanRow rows g).count c = .num (aggVotes rows g.moughataa c) := by
  simp [cleanRow, mergedCount, hm, sanitize, replaceInfs, fillna0]

theorem count_unmatched {γ : Type} (rows : List ERow) (g : GRow γ)
    (hm : g.moughataa ∉ regions rows) (c : String) :
    (cleanRow rows g).count c = .num 0 := by
  simp [cleanRow, mergedCount, hm, sanitize, replaceInfs, fillna0]

theorem pct_matched {γ : Type} (rows : List ERow) (g : GRow γ)
    (hm : g.moughataa ∈ regions rows) (hT : rowTotal rows g.moughataa ≠ 0)
    (c : String) :
    (cleanRow rows g).pct c =
      .num (round2 (aggVotes rows g.moughataa c / rowTotal rows g.moughataa * 100)) := by
  simp [cleanRow, mergedCount, mergedTotal, hm, fDiv, hT, fMul, fRound2,
    sanitize, replaceInfs, fillna0]

theorem pct_zero_total {γ : Type} (rows : List ERow) (g : GRow γ)
    (hm : g.moughataa ∈ regions rows) (hT : rowTotal rows g.moughataa = 0)
    (c : String) :
    (cleanRow rows g).pct c = .num 0 := by
  rcases lt_trichotomy (aggVotes rows g.moughataa c) 0 with ha | ha | ha
  · simp [cleanRow, mergedCount, mergedTotal, hm, fDiv, hT, ha.ne, not_lt.2 ha.le,
      fMul, fRound2, sanitize, replaceInfs, fillna0]
  · simp [cleanRow, mergedCount, mergedTotal, hm, fDiv, hT, ha,
      fMul, fRound2, sanitize, replaceInfs, fillna0]
  · simp [cleanRow, mergedCount, mergedTotal, hm, fDiv, hT, ha.ne', ha,
      fMul, fRound2, sanitize, replaceInfs, fillna0]

theorem pct_unmatched {γ : Type} (rows : List ERow) (g : GRow γ)
    (hm : g.moughataa ∉ regions rows) (c : String) :
    (cleanRow rows g).pct c = .num 0 := by
  simp [cleanRow, mergedCount, mergedTotal, hm, fDiv, fMul, fRound2,
    sanitize, replaceInfs, fillna0]

/-- The sum of the percentage values of a matched row with a non-zero total is
the sum of the rounded exact shares. -/
theorem pctSum_matched {γ : Type} (rows : List ERow) (g : GRow γ)
    (hm : g.moughataa ∈ regions rows) (hT : rowTotal rows g.moughataa ≠ 0) :
    pctSum rows (cleanRow rows g) =
      ((candidats rows).map fun c =>
        round2 (aggVotes rows g.moughataa c / rowTotal rows g.moughataa * 100)).sum := by
  unfold pctSum
  congr 1
  apply List.map_congr_left
  intro c _
  rw [pct_matched rows g hm hT c]
  rfl

/-- C1, amended bound: the exact shares of a matched row sum to `100`. -/
theorem shares_sum_100 (rows : List ERow) (m : String)
    (hT : rowTotal rows m ≠ 0) :
    ((candidats rows).map fun c => aggVotes rows m c / rowTotal rows m * 100).sum
      = 100 := by
  have he : (fun c => aggVotes rows m c / rowTotal rows m * 100)
      = fun c => aggVotes rows m c * (100 / rowTotal rows m) := by
    funext c
    ring
  rw [he, sum_map_mul_right]
  have : ((candidats rows).map (aggVotes rows m)).sum = rowTotal rows m := rfl
  rw [this]
  field_simp

/-- C1 claim, amended.  For every row of the prepared table: when the row's
total votes are a positive number `t`, the per-candidate percentage columns
sum to `100` within `±(number of candidates) / 200` (each column is rounded to
two decimals, so each contributes at most `0.005` of error — the claimed fixed
`±0.1` holds only for at most 20 candidates); when the total is `0`, every
percentage column holds exactly `0` and no division error is raised (the
division produces `NaN`/`±inf`, which the sanitisation pass replaces by `0`). -/
theorem spec_C1 {γ : Type} (geo : List (GRow γ)) (rows : List ERow)
    (row : CleanRow γ) (hrow : row ∈ gdfClean geo rows) :
    (∀ t : ℚ, row.total_votes = .num t → 0 < t →
       |pctSum rows row - 100| ≤ ((candidats rows).length : ℚ) / 200) ∧
    (row.total_votes = .num 0 → ∀ c : String, row.pct c = .num 0) := by
  obtain ⟨g, hg, rfl⟩ := List.mem_map.1 hrow
  constructor
  · intro t ht hpos
    by_cases hm : g.moughataa ∈ regions rows
    · rw [total_matched rows g hm] at ht
      have hTt : rowTotal rows g.moughataa = t := by
        injection ht
      have hT : rowTotal rows g.moughataa ≠ 0 := by
        rw [hTt]
        exact ne_of_gt hpos
      rw [pctSum_matched rows g hm hT]
      have h1 := sum_map_round2_err (candidats rows)
        (fun c => aggVotes rows g.moughataa c / rowTotal rows g.moughataa * 100)
      rw [shares_sum_100 rows g.moughataa hT] at h1
      exact h1
    · rw [total_unmatched rows g hm] at ht
      have h0t : (0 : ℚ) = t := by injection ht
      exact absurd (h0t ▸ hpos) (lt_irrefl t)
  · intro h0 c
    by_cases hm : g.moughataa ∈ regions rows
    · rw [total_matched rows g hm] at h0
      have hT : rowTotal rows g.moughataa = 0 := by injection h0
      exact pct_zero_total rows g hm hT c
    · exact pct_unmatched rows g hm c

/-! ### The first-wins argmax of `max(..., key=...)` -/

/-- Characterisation of Python's first-wins `max(..., key=f)` fold: the result
bounds the initial element and every listed element from above, and it is the
first element of the scanned list attaining the maximal key. -/
theorem pyFold_spec {α : Type} (f : α → ℚ) :
    ∀ (xs : List α) (a : α),
      f a ≤ f (pyFold f a xs) ∧
      (∀ y ∈ xs, f y ≤ f (pyFold f a xs)) ∧
      (a :: xs).find? (fun c => decide (f (pyFold f a xs) ≤ f c))
        = some (pyFold f a xs) := by
  intro xs
  induction xs with
  | nil =>
      intro a
      refine ⟨le_refl _, by simp, ?_⟩
      exact List.find?_cons_of_pos _ (by simp [pyFold])
  | cons y ys ih =>
      intro a
      by_cases hy : f y > f a
      · have hred : pyFold f a (y :: ys) = pyFold f y ys := by
          simp [pyFold, hy]
        obtain ⟨ih1, ih2, ih3⟩ := ih y
        rw [hred]
        refine ⟨le_of_lt (lt_of_lt_of_le hy ih1), ?_, ?_⟩
        · intro z hz
          rcases List.mem_cons.1 hz with hz | hz
          · exact hz ▸ ih1
          · exact ih2 z hz
        · have hpa : ¬ ((fun c => decide (f (pyFold f y ys) ≤ f c)) a = true) := by
            simp only [decide_eq_true_eq]
            exact not_le.2 (lt_of_lt_of_le hy ih1)
          rw [@List.find?_cons_of_neg _
            (fun c => decide (f (pyFold f y ys) ≤ f c)) a (y :: ys) hpa]
          exact ih3
      · have hy' : f y ≤ f a := not_lt.1 hy
        have hred : pyFold f a (y :: ys) = pyFold f a ys := by
          simp [pyFold, hy]
        obtain ⟨ih1, ih2, ih3⟩ := ih a
        rw [hred]
        refine ⟨ih1, ?_, ?_⟩
        · intro z hz
          rcases List.mem_cons.1 hz with hz | hz
          · exact hz ▸ le_trans hy' ih1
          · exact ih2 z hz
        · by_cases hpa : f (pyFold f a ys) ≤ f a
          · have hpt : ((fun c => decide (f (pyFold f a ys) ≤ f c)) a = true) := by
              simp [hpa]
            have h4 := ih3
            rw [@List.find?_cons_of_pos _
              (fun c => decide (f (pyFold f a ys) ≤ f c)) a ys hpt] at h4
            rw [@List.find?_cons_of_pos _
              (fun c => decide (f (pyFold f a ys) ≤ f c)) a (y :: ys) hpt]
            exact h4
          · have hpf : ¬ ((fun c => decide (f (pyFold f a ys) ≤ f c)) a = true) := by
              simp [hpa]
            have hpy : ¬ ((fun c => decide (f (pyFold f a ys) ≤ f c)) y = true) := by
              simp only [decide_eq_true_eq]
              intro hle
              exact hpa (le_trans hle hy')
            rw [@List.find?_cons_of_neg _
              (fun c => decide (f (pyFold f a ys) ≤ f c)) a (y :: ys) hpf]
            rw [@List.find?_cons_of_neg _
              (fun c => decide (f (pyFold f a ys) ≤ f c)) y ys hpy]
            have h4 := ih3
            rw [@List.find?_cons_of_neg _
              (fun c => decide (f (pyFold f a ys) ≤ f c)) a ys hpf] at h4
            exact h4

/-- C4 claim.  When the leader computation succeeds with winner `w`, then `w`
is a candidate column, its national total is maximal, `w` is the first column
(in pivot column order, the iteration order of the totals dict) whose total
attains the maximum — the first-encountered tie-break — and `w`'s own total is
positive as soon as any candidate's total is: a zero-vote candidate is never
the leader while some other candidate has votes. -/
theorem spec_C4 (rows : List ERow) (w : String)
    (hw : gagnantNational rows = some w) :
    w ∈ candidats rows ∧
    (∀ c ∈ candidats rows, totauxNat rows c ≤ totauxNat rows w) ∧
    (candidats rows).find? (fun c => decide (totauxNat rows w ≤ totauxNat rows c))
      = some w ∧
    (∀ c ∈ candidats rows, 0 < totauxNat rows c → 0 < totauxNat rows w) := by
  unfold gagnantNational pyMax at hw
  rcases hc : candidats rows with _ | ⟨x, xs⟩
  · rw [hc] at hw
    exact absurd hw (by simp)
  · rw [hc] at hw
    have hwv : pyFold (totauxNat rows) x xs = w := by
      injection hw
    obtain ⟨h1, h2, h3⟩ := pyFold_spec (totauxNat rows) xs x
    rw [hwv] at h1 h2 h3
    have hmem : w ∈ x :: xs := List.mem_of_find?_eq_some h3
    refine ⟨hc ▸ hmem, ?_, hc ▸ h3, ?_⟩
    · intro c hcmem
      rcases List.mem_cons.1 hcmem with hcm | hcm
      · exact hcm ▸ h1
      · exact h2 c hcm
    · intro c hcmem hcpos
      rcases List.mem_cons.1 hcmem with hcm | hcm
      · exact lt_of_lt_of_le (hcm ▸ hcpos) (hcm ▸ h1)
      · exact lt_of_lt_of_le hcpos (h2 c hcm)

/-! ### Column sums over the joined table -/

/-- The serialised column of a candidate over the prepared table: the pivot
value on matched rows, `0` (zero-filled) on unmatched ones. -/
theorem column_gdfClean {γ : Type} (geo : List (GRow γ)) (rows : List ERow)
    (c : String) :
    column (gdfClean geo rows) c
      = geo.map fun g =>
          if g.moughataa ∈ regions rows then aggVotes rows g.moughataa c else 0 := by
  unfold column gdfClean
  rw [List.map_map]
  apply List.map_congr_left
  intro g _
  by_cases hm : g.moughataa ∈ regions rows
  · simp [Function.comp, count_matched rows g hm, hm, F.toQ]
  · simp [Function.comp, count_unmatched rows g hm, hm, F.toQ]

theorem sum_map_ite (ns R : List String) (f : String → ℚ) :
    (ns.map fun m => if m ∈ R then f m else 0).sum
      = ((ns.filter fun m => decide (m ∈ R)).map f).sum := by
  induction ns with
  | nil => simp
  | cons n ns ih =>
      by_cases hn : n ∈ R
      · simp [List.filter_cons, hn, ih]
      · simp [List.filter_cons, hn, ih]

theorem filter_mem_perm (ns R : List String) (hR : R.Nodup)
    (h1 : ∀ m ∈ R, ns.count m = 1) :
    List.Perm (ns.filter fun m => decide (m ∈ R)) R := by
  rw [List.perm_iff_count]
  intro a
  by_cases ha : a ∈ R
  · have hfa : ns.count a = 1 := h1 a ha
    have hc : (ns.filter fun m => decide (m ∈ R)).count a = ns.count a :=
      List.count_filter (by simp [ha])
    rw [hc, hfa, List.count_eq_one_of_mem hR ha]
  · have hnot : a ∉ ns.filter fun m => decide (m ∈ R) := by
      intro hmem
      exact ha (by simpa using (List.mem_filter.1 hmem).2)
    rw [List.count_eq_zero.2 hnot, List.count_eq_zero.2 ha]

/-- C2 claim, amended.  Summing a candidate's per-region vote-count column over
the prepared (joined) table equals that candidate's national total — the total
used to pick the leader — provided every region of the pivoted results occurs
exactly once among the geometry's region names.  (Without that proviso the
left join drops the pivot rows with no geometry match, or duplicates those
matched by several geometry rows, and the column sum differs from the national
total.) -/
theorem spec_C2 {γ : Type} (geo : List (GRow γ)) (rows : List ERow)
    (H : ∀ m ∈ regions rows, (geo.map (fun g => g.moughataa)).count m = 1)
    (c : String) (_hc : c ∈ candidats rows) :
    colSum (gdfClean geo rows) c = totauxNat rows c := by
  rw [colSum, column_gdfClean]
  have h0 : (geo.map fun g =>
        if g.moughataa ∈ regions rows then aggVotes rows g.moughataa c else 0)
      = ((geo.map fun g => g.moughataa).map fun m =>
          if m ∈ regions rows then aggVotes rows m c else 0) := by
    rw [List.map_map]
    rfl
  rw [h0, sum_map_ite]
  have hperm : List.Perm
      (((geo.map fun g => g.moughataa).filter
        fun m => decide (m ∈ regions rows)).map fun m => aggVotes rows m c)
      ((regions rows).map fun m => aggVotes rows m c) :=
    (filter_mem_perm _ _ (sortDedup_nodup _) H).map _
  exact hperm.sum_eq

/-- C5 claim.  The merge of geometry onto the pivoted results is a left join by
region name: (a) the prepared table has exactly one row per geometry row, in
order, carrying the geometry row's region name; (b) a prepared row whose region
is absent from the (year-filtered, pivoted) results has zero-filled candidate
columns (and zero total and percentages); (c) a results region absent from the
geometry appears in no prepared row — it is silently dropped. -/
theorem spec_C5 {γ : Type} (geo : List (GRow γ)) (rows : List ERow) :
    ((gdfClean geo rows).map (fun row => row.moughataa)
        = geo.map (fun g => g.moughataa)) ∧
    (∀ row ∈ gdfClean geo rows, row.moughataa ∉ regions rows →
       (∀ c : String, row.count c = .num 0) ∧ row.total_votes = .num 0 ∧
       (∀ c : String, row.pct c = .num 0)) ∧
    (∀ m ∈ regions rows, m ∉ geo.map (fun g => g.moughataa) →
       ∀ row ∈ gdfClean geo rows, row.moughataa ≠ m) := by
  refine ⟨?_, ?_, ?_⟩
  · simp [gdfClean, cleanRow]
  · intro row hrow hm
    obtain ⟨g, hg, rfl⟩ := List.mem_map.1 hrow
    exact ⟨count_unmatched rows g hm, total_unmatched rows g hm,
      pct_unmatched rows g hm⟩
  · intro m _ hnotgeo row hrow
    obtain ⟨g, hg, rfl⟩ := List.mem_map.1 hrow
    intro heq
    exact hnotgeo (List.mem_map.2 ⟨g, hg, heq⟩)

/-- C10 claim.  After preparation, every value of every data column of the
prepared table (candidate counts, `total_votes`, percentage columns) is a
finite number: no `NaN`, no `±inf`, no missing value.  Only the `geometry` and
`moughataa` columns are excluded (they are not numeric). -/
theorem spec_C10 {γ : Type} (geo : List (GRow γ)) (rows : List ERow)
    (row : CleanRow γ) (hrow : row ∈ gdfClean geo rows) :
    (∀ c : String, (row.count c).isFinite = true) ∧
    row.total_votes.isFinite = true ∧
    (∀ c : String, (row.pct c).isFinite = true) := by
  obtain ⟨g, hg, rfl⟩ := List.mem_map.1 hrow
  exact ⟨fun c => sanitize_isFinite _, sanitize_isFinite _,
    fun c => sanitize_isFinite _⟩

/-- C7 claim.  A selection transition rewrites only derived view state: for
every sequence of selection changes, the resident prepared table (and the
candidate list, the baked national total and leader) is unchanged — the
client-side handler reads `source.data` and never writes it. -/
theorem spec_C7 {γ : Type} (s : InteractState γ) (cs : List String) :
    (applySelections s cs).table = s.table ∧
    (applySelections s cs).cands = s.cands ∧
    (applySelections s cs).natTotal = s.natTotal ∧
    (applySelections s cs).leader = s.leader := by
  induction cs generalizing s with
  | nil => exact ⟨rfl, rfl, rfl, rfl⟩
  | cons c cs ih =>
      have hstep : applySelections s (c :: cs) = applySelections (step s c) cs := rfl
      rw [hstep]
      exact ih (step s c)

/-! ### Concrete evaluations on the spec §8 scenario -/

theorem sR_candidats : candidats sR = ["X", "Y"] := by
  simp [candidats, sortDedup, filterYear, sR, List.insertionSort,
    List.orderedInsert, List.dedup]
  all_goals decide

theorem sR_regions : regions sR = ["A", "B"] := by
  simp [regions, sortDedup, filterYear, sR, List.insertionSort,
    List.orderedInsert, List.dedup]
  all_goals decide

theorem sR_aggAX : aggVotes sR "A" "X" = 70 := by
  simp [aggVotes, filterYear, sR]

theorem sR_aggAY : aggVotes sR "A" "Y" = 30 := by
  simp [aggVotes, filterYear, sR]

theorem sR_aggBX : aggVotes sR "B" "X" = 0 := by
  simp [aggVotes, filterYear, sR]

theorem sR_aggBY : aggVotes sR "B" "Y" = 0 := by
  simp [aggVotes, filterYear, sR]

theorem sR_rowTotalA : rowTotal sR "A" = 100 := by
  rw [rowTotal, sR_candidats]
  norm_num [sR_aggAX, sR_aggAY]

theorem sR_rowTotalB : rowTotal sR "B" = 0 := by
  rw [rowTotal, sR_candidats]
  norm_num [sR_aggBX, sR_aggBY]

theorem sR_totX : totauxNat sR "X" = 70 := by
  rw [totauxNat, sR_regions]
  norm_num [sR_aggAX, sR_aggBX]

theorem sR_totY : totauxNat sR "Y" = 30 := by
  rw [totauxNat, sR_regions]
  norm_num [sR_aggAY, sR_aggBY]

theorem sR_gagnant : gagnantNational sR = some "X" := by
  rw [gagnantNational, sR_candidats]
  simp [pyMax, pyFold, sR_totX, sR_totY]
  norm_num

theorem sR_memA : cleanRow sR (⟨"A", ()⟩ : GRow Unit) ∈ gdfClean sG sR := by
  simp [gdfClean, sG]

theorem sR_memB : cleanRow sR (⟨"B", ()⟩ : GRow Unit) ∈ gdfClean sG sR := by
  simp [gdfClean, sG]

theorem sR_cleanA_total :
    (cleanRow sR (⟨"A", ()⟩ : GRow Unit)).total_votes = F.num 100 := by
  have hm : (⟨"A", ()⟩ : GRow Unit).moughataa ∈ regions sR := by
    rw [sR_regions]
    simp
  rw [total_matched sR _ hm]
  exact congrArg F.num sR_rowTotalA

theorem sR_cleanB_total :
    (cleanRow sR (⟨"B", ()⟩ : GRow Unit)).total_votes = F.num 0 := by
  have hm : (⟨"B", ()⟩ : GRow Unit).moughataa ∈ regions sR := by
    rw [sR_regions]
    simp
  rw [total_matched sR _ hm]
  exact congrArg F.num sR_rowTotalB

/-- Witness for the amended C1 on the spec §8 scenario: row `A` has total 100
and its percentage sum is within the bound; row `B` has total 0 and a zero
percentage for `X`. -/
theorem spec_C1_witness :
    (cleanRow sR (⟨"A", ()⟩ : GRow Unit) ∈ gdfClean sG sR) ∧
    (0 : ℚ) < 100 ∧
    |pctSum sR (cleanRow sR (⟨"A", ()⟩ : GRow Unit)) - 100|
      ≤ ((candidats sR).length : ℚ) / 200 ∧
    (cleanRow sR (⟨"B", ()⟩ : GRow Unit)).pct "X" = F.num 0 := by
  refine ⟨sR_memA, by norm_num, ?_, ?_⟩
  · exact (spec_C1 sG sR _ sR_memA).1 100 sR_cleanA_total (by norm_num)
  · exact (spec_C1 sG sR _ sR_memB).2 sR_cleanB_total "X"

/-- Witness for C10 on the scenario data. -/
theorem spec_C10_witness :
    (cleanRow sR (⟨"A", ()⟩ : GRow Unit) ∈ gdfClean sG sR) ∧
    ((cleanRow sR (⟨"A", ()⟩ : GRow Unit)).count "X").isFinite = true ∧
    ((cleanRow sR (⟨"A", ()⟩ : GRow Unit)).total_votes).isFinite = true ∧
    ((cleanRow sR (⟨"A", ()⟩ : GRow Unit)).pct "Y").isFinite = true :=
  ⟨sR_memA, (spec_C10 sG sR _ sR_memA).1 "X", (spec_C10 sG sR _ sR_memA).2.1,
    (spec_C10 sG sR _ sR_memA).2.2 "Y"⟩

/-- Witness for C4 on the scenario data: the leader is `X` and satisfies the
argmax/tie-break/positivity properties. -/
theorem spec_C4_witness :
    gagnantNational sR = some "X" ∧
    ("X" ∈ candidats sR ∧
     (∀ c ∈ candidats sR, totauxNat sR c ≤ totauxNat sR "X") ∧
     (candidats sR).find?
       (fun c => decide (totauxNat sR "X" ≤ totauxNat sR c)) = some "X" ∧
     (∀ c ∈ candidats sR, 0 < totauxNat sR c → 0 < totauxNat sR "X")) :=
  ⟨sR_gagnant, spec_C4 sR "X" sR_gagnant⟩

/-- Witness for the amended C2 on the scenario data: each results region
occurs exactly once in the geometry, and the joined column sum of `X` equals
its national total. -/
theorem spec_C2_witness :
    (∀ m ∈ regions sR, ((sG.map fun g => g.moughataa).count m = 1)) ∧
    ("X" ∈ candidats sR) ∧
    colSum (gdfClean sG sR) "X" = totauxNat sR "X" := by
  have H : ∀ m ∈ regions sR, ((sG.map fun g => g.moughataa).count m = 1) := by
    intro m hm
    rw [sR_regions] at hm
    rcases List.mem_cons.1 hm with rfl | hm2
    · simp [sG, List.count_cons]
    · rcases List.mem_cons.1 hm2 with rfl | hm3
      · simp [sG, List.count_cons]
      · exact absurd hm3 (List.not_mem_nil m)
  have hc : "X" ∈ candidats sR := by
    rw [sR_candidats]
    simp
  exact ⟨H, hc, spec_C2 sG sR H "X" hc⟩

/-! ### C2 counterexample: a results region with no geometry match -/

/-- Empty geometry source. -/
def cexG2 : List (GRow Unit) := []

/-- One 2024 results row in region `A`, candidate `X`, 5 votes. -/
def cexR2 : List ERow := [⟨2024, "A", "X", 5⟩]

theorem cexR2_regions : regions cexR2 = ["A"] := by
  simp [regions, sortDedup, filterYear, cexR2, List.insertionSort,
    List.orderedInsert, List.dedup]

theorem cexR2_candidats : candidats cexR2 = ["X"] := by
  simp [candidats, sortDedup, filterYear, cexR2, List.insertionSort,
    List.orderedInsert, List.dedup]

/-- Counterexample to C2 as stated: with an empty geometry the joined table is
empty, so candidate `X`'s column sums to `0`, while the national total used to
pick the leader (`X` is the leader) is `5`.  The left join silently dropped
region `A`. -/
theorem spec_C2_cex :
    colSum (gdfClean cexG2 cexR2) "X" = 0 ∧
    totauxNat cexR2 "X" = 5 ∧
    gagnantNational cexR2 = some "X" ∧
    (0 : ℚ) ≠ 5 := by
  refine ⟨?_, ?_, ?_, by norm_num⟩
  · simp [colSum, column, gdfClean, cexG2]
  · rw [totauxNat, cexR2_regions]
    simp [aggVotes, filterYear, cexR2]
  · rw [gagnantNational, cexR2_candidats]
    simp [pyMax, pyFold]

/-! ### C3: no rows with the requested year -/

/-- A results source whose only row is from year 2023. -/
def rows2023 : List ERow := [⟨2023, "A", "X", 5⟩]

theorem rows2023_filter : filterYear rows2023 = [] := by
  simp [filterYear, rows2023]

/-- Counterexample to C3 as stated: with no 2024 rows the year filter yields
the empty table, but preparation does NOT complete silently: the leader
computation `max({}, ...)` raises `ValueError` (modelled: `prep` is `none`,
not `some` of an empty table). -/
theorem spec_C3_cex :
    filterYear rows2023 = [] ∧ prep cexG2 rows2023 = none := by
  refine ⟨rows2023_filter, ?_⟩
  have hc : candidats rows2023 = [] := by
    unfold candidats
    rw [rows2023_filter]
    rfl
  unfold prep gagnantNational
  rw [hc]
  rfl

/-- Witness for the amended C3. -/
theorem spec_C3_witness :
    filterYear rows2023 = [] ∧
    (candidats rows2023 = [] ∧ prep cexG2 rows2023 = none) :=
  ⟨rows2023_filter, spec_C3 cexG2 rows2023 rows2023_filter⟩

/-! ### C5 witness: geometry-only and results-only regions -/

/-- Geometry with regions `A` and `C`. -/
def wG : List (GRow Unit) := [⟨"A", ()⟩, ⟨"C", ()⟩]

/-- Results with regions `A` and `D` (so `C` is geometry-only and `D` is
results-only). -/
def wR : List ERow := [⟨2024, "A", "X", 70⟩, ⟨2024, "D", "X", 9⟩]

theorem wR_regions : regions wR = ["A", "D"] := by
  simp [regions, sortDedup, filterYear, wR, List.insertionSort,
    List.orderedInsert, List.dedup]
  all_goals decide

/-- Witness for C5: the geometry-only region `C` gets zero-filled candidate
columns, and the results-only region `D` appears in no prepared row. -/
theorem spec_C5_witness :
    ((cleanRow wR (⟨"C", ()⟩ : GRow Unit)).moughataa ∉ regions wR) ∧
    (∀ c : String, (cleanRow wR (⟨"C", ()⟩ : GRow Unit)).count c = F.num 0) ∧
    ("D" ∈ regions wR) ∧ ("D" ∉ wG.map fun g => g.moughataa) ∧
    ((cleanRow wR (⟨"A", ()⟩ : GRow Unit)).moughataa ≠ "D") := by
  have hmemC : cleanRow wR (⟨"C", ()⟩ : GRow Unit) ∈ gdfClean wG wR := by
    simp [gdfClean, wG]
  have hmemA : cleanRow wR (⟨"A", ()⟩ : GRow Unit) ∈ gdfClean wG wR := by
    simp [gdfClean, wG]
  have hCnot : (cleanRow wR (⟨"C", ()⟩ : GRow Unit)).moughataa ∉ regions wR := by
    rw [wR_regions]
    decide
  have hD : "D" ∈ regions wR := by
    rw [wR_regions]
    simp
  have hDnot : "D" ∉ wG.map fun g => g.moughataa := by
    simp [wG]
  exact ⟨hCnot, ((spec_C5 wG wR).2.1 _ hmemC hCnot).1, hD, hDnot,
    (spec_C5 wG wR).2.2 "D" hD hDnot _ hmemA⟩

/-! ### C8 witness: permuted results rows -/

/-- The scenario rows with the first two rows swapped. -/
def sRswap : List ERow :=
  [⟨2024, "A", "Y", 30⟩, ⟨2024, "A", "X", 70⟩,
   ⟨2024, "B", "X", 0⟩, ⟨2024, "B", "Y", 0⟩]

theorem sR_perm_swap : List.Perm sR sRswap := List.Perm.swap _ _ _

/-- Witness for C8: the prepared table, the candidate list, the national totals
and the leader are identical on the two orderings of the same rows. -/
theorem spec_C8_witness :
    List.Perm sR sRswap ∧
    (gdfClean sG sR = gdfClean sG sRswap ∧
     candidats sR = candidats sRswap ∧
     totauxNat sR = totauxNat sRswap ∧
     gagnantNational sR = gagnantNational sRswap) :=
  ⟨sR_perm_swap, spec_C8 sG sR sRswap sR_perm_swap⟩

/-! ### The prepared scenario session (C9, C6) -/

/-- The preparation outcome on the scenario data. -/
def pS : Prepared Unit :=
  { table := gdfClean sG sR, cands := candidats sR, totauxF := totauxNat sR,
    leader := "X", initial := "X" }

theorem prep_sG_sR : prep sG sR = some pS := by
  have h2 : (candidats sR).head? = some "X" := by
    rw [sR_candidats]
    rfl
  unfold prep
  rw [sR_gagnant, h2]
  rfl

/-- Witness for C9: after selecting `Y` the displayed leader is still `X`, the
national leader computed during preparation (matching the spec §8 scenario). -/
theorem spec_C9_witness :
    prep sG sR = some pS ∧
    ((applySelections (initState pS) ["Y"]).view.infoLeader = "X" ∧
     gagnantNational sR = some "X") :=
  ⟨prep_sG_sR, spec_C9 sG sR pS prep_sG_sR ["Y"]⟩

/-- Witness for the amended C6: selecting `Y` in the scenario session yields
the claimed total, share, tooltip and color-bound behaviour. -/
theorem spec_C6_witness :
    ("Y" ∈ (initState pS).cands) ∧
    ((step (initState pS) "Y").view.infoTotal
        = (column (initState pS).table "Y").sum ∧
     (step (initState pS) "Y").view.infoPct
        = toFixed1 ((column (initState pS).table "Y").sum
            / (initState pS).natTotal * 100) ∧
     (step (initState pS) "Y").view.tooltips =
       [("Moughataa", "@moughataa"),
        ("Voix", "@\x7b" ++ "Y" ++ "\x7d\x7b0,0\x7d"),
        ("Part", "@\x7b" ++ "Y" ++ "_pct\x7d\x7b0.0\x7d%")] ∧
     (step (initState pS) "Y").view.fillField = "Y" ∧
     (0 ≤ (step (initState pS) "Y").view.high ∧
       ∀ x ∈ column (initState pS).table "Y",
         x ≤ (step (initState pS) "Y").view.high) ∧
     ((step (initState pS) "Y").view.high = 0 ∨
       (step (initState pS) "Y").view.high ∈ column (initState pS).table "Y") ∧
     ((∃ x ∈ column (initState pS).table "Y", 0 ≤ x) →
        (step (initState pS) "Y").view.high ∈ column (initState pS).table "Y" ∧
        ∀ x ∈ column (initState pS).table "Y",
          x ≤ (step (initState pS) "Y").view.high)) := by
  have hy : "Y" ∈ (initState pS).cands := by
    show "Y" ∈ candidats sR
    rw [sR_candidats]
    simp
  exact ⟨hy, spec_C6 (initState pS) "Y" hy⟩

/-! ### C6 counterexample: a negative vote count -/

/-- Geometry with the single region `R`. -/
def cexGneg : List (GRow Unit) := [⟨"R", ()⟩]

/-- A results source with a negative vote count (nothing in the pipeline
validates signs). -/
def cexRneg : List ERow := [⟨2024, "R", "X", -5⟩]

theorem cexRneg_regions : regions cexRneg = ["R"] := by
  simp [regions, sortDedup, filterYear, cexRneg, List.insertionSort,
    List.orderedInsert, List.dedup]

theorem cexRneg_aggRX : aggVotes cexRneg "R" "X" = -5 := by
  simp [aggVotes, filterYear, cexRneg]

/-- A fixed dummy view (the callback rewrites every view field). -/
def dummyView : ViewState := ⟨0, "", "", [], "", 0, 0, ""⟩

/-- A rendering-stage state resident over the prepared negative-count data. -/
def s1 : InteractState Unit :=
  { table := gdfClean cexGneg cexRneg, cands := ["X"], natTotal := -5,
    leader := "X", view := dummyView }

/-- Counterexample to C6 as stated: on the prepared table whose only `X` value
is `-5`, the JavaScript loop (running maximum started at `0`) sets the new
color-scale upper bound to `0`, which is not the column's maximum — it is not
even a member of the column. -/
theorem spec_C6_cex :
    (step s1 "X").view.high = 0 ∧
    column s1.table "X" = [(-5 : ℚ)] ∧
    (step s1 "X").view.high ∉ column s1.table "X" := by
  have hcol : column s1.table "X" = [(-5 : ℚ)] := by
    have h1 : s1.table = gdfClean cexGneg cexRneg := rfl
    rw [h1, column_gdfClean]
    simp [cexGneg, cexRneg_regions, cexRneg_aggRX]
  have hhigh : (step s1 "X").view.high = jsMaxVal (column s1.table "X") := rfl
  refine ⟨?_, hcol, ?_⟩
  · rw [hhigh, hcol]
    norm_num [jsMaxVal]
  · rw [hhigh, hcol]
    norm_num [jsMaxVal]

/-! ### C1 counterexample: 23 candidates accumulate rounding error beyond 0.1 -/

/-- Geometry with the single region `R` (for the C1 counterexample). -/
def cexG1 : List (GRow Unit) := [⟨"R", ()⟩]

/-- One region, 23 candidates: 22 candidates with 1 vote each and one with
19978 votes, total 20000.  Each small candidate's share is exactly 0.005%,
which rounds (half to even) to 0.00, losing 0.005 per column; the large
candidate's share is exactly 99.89%.  The rounded shares sum to 99.89, which
misses 100 by 0.11 > 0.1. -/
def cexR1 : List ERow :=
  [⟨2024, "R", "ca", 1⟩, ⟨2024, "R", "cb", 1⟩, ⟨2024, "R", "cc", 1⟩,
   ⟨2024, "R", "cd", 1⟩, ⟨2024, "R", "ce", 1⟩, ⟨2024, "R", "cf", 1⟩,
   ⟨2024, "R", "cg", 1⟩, ⟨2024, "R", "ch", 1⟩, ⟨2024, "R", "ci", 1⟩,
   ⟨2024, "R", "cj", 1⟩, ⟨2024, "R", "ck", 1⟩, ⟨2024, "R", "cl", 1⟩,
   ⟨2024, "R", "cm", 1⟩, ⟨2024, "R", "cn", 1⟩, ⟨2024, "R", "co", 1⟩,
   ⟨2024, "R", "cp", 1⟩, ⟨2024, "R", "cq", 1⟩, ⟨2024, "R", "cr", 1⟩,
   ⟨2024, "R", "cs", 1⟩, ⟨2024, "R", "ct", 1⟩, ⟨2024, "R", "cu", 1⟩,
   ⟨2024, "R", "cv", 1⟩, ⟨2024, "R", "zz", 19978⟩]

theorem cexR1_regions : regions cexR1 = ["R"] := by
  simp [regions, sortDedup, filterYear, cexR1, List.insertionSort,
    List.orderedInsert, List.dedup]

theorem cexR1_candidats :
    candidats cexR1 =
      ["ca", "cb", "cc", "cd", "ce", "cf", "cg", "ch", "ci", "cj", "ck", "cl",
       "cm", "cn", "co", "cp", "cq", "cr", "cs", "ct", "cu", "cv", "zz"] := by
  simp [candidats, sortDedup, filterYear, cexR1, List.insertionSort,
    List.orderedInsert, List.dedup]
  all_goals decide

theorem cexR1_agg_ca : aggVotes cexR1 "R" "ca" = 1 := by
  simp [aggVotes, filterYear, cexR1]

theorem cexR1_agg_cb : aggVotes cexR1 "R" "cb" = 1 := by
  simp [aggVotes, filterYear, cexR1]

theorem cexR1_agg_cc : aggVotes cexR1 "R" "cc" = 1 := by
  simp [aggVotes, filterYear, cexR1]

theorem cexR1_agg_cd : aggVotes cexR1 "R" "cd" = 1 := by
  simp [aggVotes, filterYear, cexR1]

theorem cexR1_agg_ce : aggVotes cexR1 "R" "ce" = 1 := by
  simp [aggVotes, filterYear, cexR1]

theorem cexR1_agg_cf : aggVotes cexR1 "R" "cf" = 1 := by
  simp [aggVotes, filterYear, cexR1]

theorem cexR1_agg_cg : aggVotes cexR1 "R" "cg" = 1 := by
  simp [aggVotes, filterYear, cexR1]

theorem cexR1_agg_ch : aggVotes cexR1 "R" "ch" = 1 := by
  simp [aggVotes, filterYear, cexR1]

theorem cexR1_agg_ci : aggVotes cexR1 "R" "ci" = 1 := by
  simp [aggVotes, filterYear, cexR1]

theorem cexR1_agg_cj : aggVotes cexR1 "R" "cj" = 1 := by
  simp [aggVotes, filterYear, cexR1]

theorem cexR1_agg_ck : aggVotes cexR1 "R" "ck" = 1 := by
  simp [aggVotes, filterYear, cexR1]

theorem cexR1_agg_cl : aggVotes cexR1 "R" "cl" = 1 := by
  simp [aggVotes, filterYear, cexR1]

theorem cexR1_agg_cm : aggVotes cexR1 "R" "cm" = 1 := by
  simp [aggVotes, filterYear, cexR1]

theorem cexR1_agg_cn : aggVotes cexR1 "R" "cn" = 1 := by
  simp [aggVotes, filterYear, cexR1]

theorem cexR1_agg_co : aggVotes cexR1 "R" "co" = 1 := by
  simp [aggVotes, filterYear, cexR1]

theorem cexR1_agg_cp : aggVotes cexR1 "R" "cp" = 1 := by
  simp [aggVotes, filterYear, cexR1]

theorem cexR1_agg_cq : aggVotes cexR1 "R" "cq" = 1 := by
  simp [aggVotes, filterYear, cexR1]

theorem cexR1_agg_cr : aggVotes cexR1 "R" "cr" = 1 := by
  simp [aggVotes, filterYear, cexR1]

theorem cexR1_agg_cs : aggVotes cexR1 "R" "cs" = 1 := by
  simp [aggVotes, filterYear, cexR1]

theorem cexR1_agg_ct : aggVotes cexR1 "R" "ct" = 1 := by
  simp [aggVotes, filterYear, cexR1]

theorem cexR1_agg_cu : aggVotes cexR1 "R" "cu" = 1 := by
  simp [aggVotes, filterYear, cexR1]

theorem cexR1_agg_cv : aggVotes cexR1 "R" "cv" = 1 := by
  simp [aggVotes, filterYear, cexR1]

theorem cexR1_agg_zz : aggVotes cexR1 "R" "zz" = 19978 := by
  simp [aggVotes, filterYear, cexR1]

theorem cexR1_rowTotal : rowTotal cexR1 "R" = 20000 := by
  rw [rowTotal, cexR1_candidats]
  norm_num [cexR1_agg_ca, cexR1_agg_cb, cexR1_agg_cc, cexR1_agg_cd, cexR1_agg_ce, cexR1_agg_cf, cexR1_agg_cg, cexR1_agg_ch, cexR1_agg_ci, cexR1_agg_cj, cexR1_agg_ck, cexR1_agg_cl, cexR1_agg_cm, cexR1_agg_cn, cexR1_agg_co, cexR1_agg_cp, cexR1_agg_cq, cexR1_agg_cr, cexR1_agg_cs, cexR1_agg_ct, cexR1_agg_cu, cexR1_agg_cv, cexR1_agg_zz]

/-- Counterexample to C1 as stated: the single prepared row has positive total
votes 20000, yet its percentage columns sum to 99.89, outside 100 ± 0.1. -/
theorem spec_C1_cex :
    (cleanRow cexR1 (⟨"R", ()⟩ : GRow Unit) ∈ gdfClean cexG1 cexR1) ∧
    (cleanRow cexR1 (⟨"R", ()⟩ : GRow Unit)).total_votes = F.num 20000 ∧
    pctSum cexR1 (cleanRow cexR1 (⟨"R", ()⟩ : GRow Unit)) = 9989 / 100 ∧
    ¬ |pctSum cexR1 (cleanRow cexR1 (⟨"R", ()⟩ : GRow Unit)) - 100| ≤ 1 / 10 := by
  have hproj : (⟨"R", ()⟩ : GRow Unit).moughataa = "R" := rfl
  have hmR : (⟨"R", ()⟩ : GRow Unit).moughataa ∈ regions cexR1 := by
    rw [hproj, cexR1_regions]
    simp
  have hT : rowTotal cexR1 (⟨"R", ()⟩ : GRow Unit).moughataa ≠ 0 := by
    rw [hproj, cexR1_rowTotal]
    norm_num
  have hsmall : round2 ((1 : ℚ) / 200) = 0 := by
    norm_num [round2, rhe]
  have hbig : round2 ((9989 : ℚ) / 100) = 9989 / 100 := by
    norm_num [round2, rhe]
  have hps : pctSum cexR1 (cleanRow cexR1 (⟨"R", ()⟩ : GRow Unit)) = 9989 / 100 := by
    rw [pctSum_matched cexR1 _ hmR hT]
    simp only [hproj]
    rw [cexR1_candidats, cexR1_rowTotal]
    norm_num [cexR1_agg_ca, cexR1_agg_cb, cexR1_agg_cc, cexR1_agg_cd, cexR1_agg_ce, cexR1_agg_cf, cexR1_agg_cg, cexR1_agg_ch, cexR1_agg_ci, cexR1_agg_cj, cexR1_agg_ck, cexR1_agg_cl, cexR1_agg_cm, cexR1_agg_cn, cexR1_agg_co, cexR1_agg_cp, cexR1_agg_cq, cexR1_agg_cr, cexR1_agg_cs, cexR1_agg_ct, cexR1_agg_cu, cexR1_agg_cv, cexR1_agg_zz, hsmall, hbig]
  refine ⟨?_, ?_, hps, ?_⟩
  · simp [gdfClean, cexG1]
  · rw [total_matched cexR1 _ hmR]
    rw [hproj, cexR1_rowTotal]
  · rw [hps]
    rw [show (9989 : ℚ) / 100 - 100 = -(11 / 100) by norm_num]
    rw [abs_neg, abs_of_nonneg (by norm_num : (0 : ℚ) ≤ 11 / 100)]
    norm_num

end Myviz

